import Mathlib

/-!
Verification of the respawn-timer bot: the respawn calculator
(`app/services.py`), the notification tick loop and deduplication ledger
(`bot.py`), and the restart state transition.

Modelling conventions:
* Instants are absolute times in seconds (`Int`); `timedelta(minutes=m)`
  becomes `60 * m` seconds.
* Python float minute arithmetic (`total_seconds() / 60`, `math.ceil`) is
  embedded as exact rational arithmetic over `ℚ`.
* Database rows become Lean structures; the in-process sets
  (`_subscribers`, `_sent_notifications`) become explicit state threaded
  through the tick functions.
-/

namespace TimerBot

/-- `services.next_spawn_at`: the anchored first occurrence after a restart,
`server_restart_at + timedelta(minutes=first_spawn_minutes)`, or
`server_restart_at` itself when `first_spawn_minutes is None`. -/
def first_spawn_calc (server_restart_at : Int) (first_spawn_minutes : Option Int) : Int :=
  match first_spawn_minutes with
  | some f => server_restart_at + 60 * f
  | none => server_restart_at

/-- `services.next_spawn_at`: compute the next spawn instant (seconds).
Mirrors the Python source line by line: the `respawn_minutes <= 0` guard,
the `last_kill_at` single-step branch, the missing-restart branch, the
`now <= first_spawn_at` branch, the 2-minute grace window on `elapsed`
(minutes, rational), and the closed-form catch-up
`k = ceil(elapsed / respawn_minutes)`. -/
def next_spawn_at (last_kill_at : Option Int) (server_restart_at : Option Int)
    (first_spawn_minutes : Option Int) (respawn_minutes : Int) (now : Int) : Option Int :=
  if respawn_minutes ≤ 0 then none
  else
    match last_kill_at with
    | some lk => some (lk + 60 * respawn_minutes)
    | none =>
      match server_restart_at with
      | none => none
      | some sr =>
        let first_spawn_at := first_spawn_calc sr first_spawn_minutes
        if now ≤ first_spawn_at then some first_spawn_at
        else
          let elapsed : ℚ := ((now - first_spawn_at : Int) : ℚ) / 60
          if elapsed ≤ 2 then some first_spawn_at
          else
            let k : Int := ⌈elapsed / (respawn_minutes : ℚ)⌉
            some (first_spawn_at + 60 * (k * respawn_minutes))

/-- Ceiling division witness: for a positive divisor `b`, `⌈e / b⌉` scaled
back by `b` dominates `e`, and it is the least integer multiplier doing so. -/
lemma ceil_div_le_and_min (e b : Int) (hb : 0 < b) :
    e ≤ b * ⌈(e : ℚ) / (b : ℚ)⌉ ∧ ∀ m : Int, e ≤ b * m → ⌈(e : ℚ) / (b : ℚ)⌉ ≤ m := by
  have hbq : (0 : ℚ) < (b : ℚ) := by exact_mod_cast hb
  constructor
  · have h1 : ((e : ℚ) / (b : ℚ)) ≤ (⌈(e : ℚ) / (b : ℚ)⌉ : ℚ) := Int.le_ceil _
    have h2 : (e : ℚ) ≤ (b : ℚ) * (⌈(e : ℚ) / (b : ℚ)⌉ : ℚ) := by
      rw [mul_comm]
      exact (div_le_iff hbq).mp h1
    exact_mod_cast h2
  · intro m hm
    apply Int.ceil_le.mpr
    rw [div_le_iff hbq]
    have : (e : ℚ) ≤ (b : ℚ) * (m : ℚ) := by exact_mod_cast hm
    calc (e : ℚ) ≤ (b : ℚ) * (m : ℚ) := this
      _ = (m : ℚ) * (b : ℚ) := by ring

/-- Positivity of the catch-up cycle count: with a stale anchor
(`0 < e`) and a positive divisor, `⌈e / b⌉ ≥ 1`. -/
lemma ceil_div_pos (e b : Int) (hb : 0 < b) (he : 0 < e) :
    0 < ⌈(e : ℚ) / (b : ℚ)⌉ := by
  apply Int.ceil_pos.mpr
  apply div_pos
  · exact_mod_cast he
  · exact_mod_cast hb

/-- Reduction of `next_spawn_at` in the catch-up regime: no kill, restart
present, positive interval, more than 120 s past the first occurrence. -/
lemma next_spawn_at_catchup (sr : Int) (fso : Option Int) (r now : Int)
    (hr : 0 < r) (he : 120 < now - first_spawn_calc sr fso) :
    next_spawn_at none (some sr) fso r now =
      some (first_spawn_calc sr fso +
        60 * (⌈((now - first_spawn_calc sr fso : Int) : ℚ) / 60 / (r : ℚ)⌉ * r)) := by
  have h0 : ¬ r ≤ 0 := not_le.mpr hr
  have h1 : ¬ now ≤ first_spawn_calc sr fso := by omega
  have h2 : ¬ ((now - first_spawn_calc sr fso : Int) : ℚ) / 60 ≤ 2 := by
    rw [not_le, lt_div_iff (by norm_num : (0:ℚ) < 60)]
    have : (120 : Int) < now - first_spawn_calc sr fso := he
    calc (2 : ℚ) * 60 = ((120 : Int) : ℚ) := by norm_num
      _ < ((now - first_spawn_calc sr fso : Int) : ℚ) := by exact_mod_cast this
  simp only [next_spawn_at, h0, if_false, h1, h2, if_neg, ite_false]

/-- C2 (amended): with no kill, a restart anchor, a positive interval and
`now` more than 2 minutes past the anchored first occurrence, `next_spawn_at`
returns the smallest instant of the form `firstOccurrence + n · interval`
(`n ≥ 0`) that is `≥ now`; in particular the result is never `< now`. -/
theorem c2_catchup_amended (sr : Int) (fso : Option Int) (r now : Int)
    (hr : 0 < r) (he : 120 < now - first_spawn_calc sr fso) :
    ∃ t, next_spawn_at none (some sr) fso r now = some t ∧
      now ≤ t ∧
      (∃ n : ℕ, t = first_spawn_calc sr fso + (n : Int) * (60 * r)) ∧
      ∀ m : ℕ, now ≤ first_spawn_calc sr fso + (m : Int) * (60 * r) →
        t ≤ first_spawn_calc sr fso + (m : Int) * (60 * r) := by
  have hb : (0 : Int) < 60 * r := by omega
  have hq : ((now - first_spawn_calc sr fso : Int) : ℚ) / 60 / (r : ℚ)
      = ((now - first_spawn_calc sr fso : Int) : ℚ) / ((60 * r : Int) : ℚ) := by
    push_cast
    rw [div_div]
  have hmain := ceil_div_le_and_min (now - first_spawn_calc sr fso) (60 * r) hb
  have hkpos := ceil_div_pos (now - first_spawn_calc sr fso) (60 * r) hb (by omega)
  obtain ⟨k, hk⟩ : ∃ k : Int,
      ⌈((now - first_spawn_calc sr fso : Int) : ℚ) / ((60 * r : Int) : ℚ)⌉ = k := ⟨_, rfl⟩
  rw [hk] at hmain hkpos
  refine ⟨first_spawn_calc sr fso + 60 * (k * r), ?_, ?_, ?_, ?_⟩
  · rw [next_spawn_at_catchup sr fso r now hr he, hq, hk]
  · have h1 := hmain.1
    have h2 : (60 * r) * k = 60 * (k * r) := by ring
    linarith
  · exact ⟨k.toNat, by rw [Int.toNat_of_nonneg (le_of_lt hkpos)]; ring⟩
  · intro m hm
    have h1 : now - first_spawn_calc sr fso ≤ (60 * r) * (m : Int) := by
      have hc : (m : Int) * (60 * r) = (60 * r) * (m : Int) := by ring
      linarith
    have h2 : k ≤ (m : Int) := hmain.2 (m : Int) h1
    have h3 : k * (60 * r) ≤ (m : Int) * (60 * r) :=
      mul_le_mul_of_nonneg_right h2 (le_of_lt hb)
    have h4 : 60 * (k * r) = k * (60 * r) := by ring
    linarith

/-- C2 counterexample: with `firstOccurrence = 760 s`, interval 3 min and
`now = 1000 s` (elapsed 4 min > grace), the code returns `1120 s`, but the
smallest occurrence strictly greater than `now − 2 min = 880 s` is
`760 + 1·180 = 940 s`: the returned instant is not that smallest value. -/
theorem c2_counterexample :
    next_spawn_at none (some 760) none 3 1000 = some 1120 ∧
      first_spawn_calc 760 none + 1 * (60 * 3) = 940 ∧
      1000 - 120 < 940 ∧ (940 : Int) < 1120 := by
  refine ⟨?_, by norm_num [first_spawn_calc], by norm_num, by norm_num⟩
  have h : ⌈(4 : ℚ) / 3⌉ = (2 : Int) := by norm_num [Int.ceil_eq_iff]
  norm_num [next_spawn_at, first_spawn_calc, h]

/-- C2 witness for the amended theorem at `sr = 760`, `fso = None`, `r = 3`,
`now = 1000`. -/
theorem c2_catchup_amended_witness :
    (0 : Int) < 3 ∧ (120 : Int) < 1000 - first_spawn_calc 760 none ∧
      (∃ t, next_spawn_at none (some 760) none 3 1000 = some t ∧
        (1000 : Int) ≤ t ∧
        (∃ n : ℕ, t = first_spawn_calc 760 none + (n : Int) * (60 * 3)) ∧
        ∀ m : ℕ, (1000 : Int) ≤ first_spawn_calc 760 none + (m : Int) * (60 * 3) →
          t ≤ first_spawn_calc 760 none + (m : Int) * (60 * 3)) :=
  ⟨by norm_num, by norm_num [first_spawn_calc],
    c2_catchup_amended 760 none 3 1000 (by norm_num) (by norm_num [first_spawn_calc])⟩

/-- C1: at Scenario A's inputs (restart 09:00 = 32400 s, first offset 60 min,
interval 120 min, now 12:00 = 43200 s, no kill) the code returns
12:00 (43200 s) — the occurrence equal to `now` — not the 14:00 (50400 s)
that the specification and the repository's own test expectation state. -/
theorem c1_scenarioA_code_result :
    next_spawn_at none (some 32400) (some 60) 120 43200 = some 43200 ∧
      (43200 : Int) ≠ 50400 := by
  refine ⟨?_, by norm_num⟩
  have h : ⌈(120 : ℚ) / 120⌉ = (1 : Int) := by norm_num
  norm_num [next_spawn_at, first_spawn_calc, h]

/-- C3: whenever `last_kill_at` is set and the interval is positive, the
result is exactly `last_kill_at + respawn_minutes`, independent of `now`,
of `server_restart_at` and of `first_spawn_minutes` (single step, no
catch-up). -/
theorem c3_kill_precedence (lk : Int) (sr : Option Int) (fso : Option Int)
    (r now : Int) (hr : 0 < r) :
    next_spawn_at (some lk) sr fso r now = some (lk + 60 * r) := by
  simp only [next_spawn_at, not_le.mpr hr, if_false, ite_false]

/-- C3 witness at `lk = 41400` (11:30), `r = 120`, arbitrary restart and now. -/
theorem c3_kill_precedence_witness :
    (0 : Int) < 120 ∧
      next_spawn_at (some 41400) (some 32400) (some 60) 120 43200 = some (41400 + 60 * 120) :=
  ⟨by norm_num, c3_kill_precedence 41400 (some 32400) (some 60) 120 43200 (by norm_num)⟩

/-- C4: with no kill, a restart anchor and a positive interval, if the first
occurrence is past but within the 2-minute grace window
(`0 < now − firstOccurrence ≤ 120 s`), the first occurrence is returned
unchanged — no catch-up. -/
theorem c4_grace_window (sr : Int) (fso : Option Int) (r now : Int)
    (hr : 0 < r) (h1 : 0 < now - first_spawn_calc sr fso)
    (h2 : now - first_spawn_calc sr fso ≤ 120) :
    next_spawn_at none (some sr) fso r now = some (first_spawn_calc sr fso) := by
  have h0 : ¬ r ≤ 0 := not_le.mpr hr
  have h3 : ¬ now ≤ first_spawn_calc sr fso := by omega
  have h4 : ((now - first_spawn_calc sr fso : Int) : ℚ) / 60 ≤ 2 := by
    rw [div_le_iff (by norm_num : (0:ℚ) < 60)]
    have : (now - first_spawn_calc sr fso : Int) ≤ 120 := h2
    calc ((now - first_spawn_calc sr fso : Int) : ℚ) ≤ ((120 : Int) : ℚ) := by exact_mod_cast this
      _ = 2 * 60 := by norm_num
  simp only [next_spawn_at, h0, if_false, h3, h4, if_true, ite_false, ite_true]

/-- C4 witness: Scenario D — restart 11:59:30 (43170 s), no offset,
interval 180 min, now 12:00:00 (43200 s): result 11:59:30 unchanged. -/
theorem c4_grace_window_witness :
    (0 : Int) < 180 ∧ (0 : Int) < 43200 - first_spawn_calc 43170 none ∧
      43200 - first_spawn_calc 43170 none ≤ 120 ∧
      next_spawn_at none (some 43170) none 180 43200 = some (first_spawn_calc 43170 none) :=
  ⟨by norm_num, by norm_num [first_spawn_calc], by norm_num [first_spawn_calc],
    c4_grace_window 43170 none 180 43200 (by norm_num) (by norm_num [first_spawn_calc])
      (by norm_num [first_spawn_calc])⟩

/-- C7: a non-positive respawn interval yields `none` (unscheduled) for every
combination of the other inputs; the function is total, so no exception. -/
theorem c7_nonpositive_interval (lk sr : Option Int) (fso : Option Int)
    (r now : Int) (hr : r ≤ 0) :
    next_spawn_at lk sr fso r now = none := by
  simp only [next_spawn_at, hr, if_true, ite_true]

/-- C7 witness at `r = 0` with all the optional inputs populated. -/
theorem c7_nonpositive_interval_witness :
    (0 : Int) ≤ 0 ∧ next_spawn_at (some 41400) (some 32400) (some 60) 0 43200 = none :=
  ⟨by norm_num, c7_nonpositive_interval (some 41400) (some 32400) (some 60) 0 43200 (by norm_num)⟩

/-! ### `bot.py`: state rows, notification intervals, tick loop, restart -/

/-- Row of the `server_state` table (`app/models.py: ServerState`): the
optional restart instant and the comma-separated intervals string. -/
structure ServerStateR where
  server_restart_at : Option Int
  notification_intervals : Option String
deriving DecidableEq

/-- `bot.get_server_restart`: the restart anchor, `None` when the row is
missing or its `server_restart_at` column is `NULL`. -/
def get_server_restart (row : Option ServerStateR) : Option Int :=
  match row with
  | none => none
  | some r => r.server_restart_at

/-- Python `str.split(",")` on the character list of the string: cut at
every comma, neighbouring commas and string ends producing empty pieces. -/
def splitComma : List Char → List (List Char)
  | [] => [[]]
  | c :: rest =>
    if c = ',' then [] :: splitComma rest
    else
      match splitComma rest with
      | [] => [[c]]
      | g :: gs => (c :: g) :: gs

/-- Python `str.strip()` as used by `int()`: drop whitespace from both ends. -/
def pyTrim (cs : List Char) : List Char :=
  ((cs.dropWhile Char.isWhitespace).reverse.dropWhile Char.isWhitespace).reverse

/-- Digit-run value: `some n` when the list is a nonempty run of ASCII
digits, else `none`. -/
def pyDigits (cs : List Char) : Option Nat :=
  if cs ≠ [] ∧ cs.all (fun c => c.isDigit) then
    some (cs.foldl (fun n c => 10 * n + (c.toNat - 48)) 0)
  else none

/-- Model of Python `int(str)` on one comma-separated piece: strip
surrounding whitespace, an optional sign, then a nonempty digit run; any
other shape raises `ValueError`, modelled as `none`. -/
def pyParseInt (cs : List Char) : Option Int :=
  match pyTrim cs with
  | '+' :: rest => (pyDigits rest).map (fun n => (n : Int))
  | '-' :: rest => (pyDigits rest).map (fun n => -(n : Int))
  | other => (pyDigits other).map (fun n => (n : Int))

/-- The comprehension `[int(x) for x in s.split(",")]`: parse each piece in
order; the first failure raises, modelled as `none` for the whole list. -/
def parseAll : List (List Char) → Option (List Int)
  | [] => some []
  | p :: ps =>
    match pyParseInt p, parseAll ps with
    | some v, some vs => some (v :: vs)
    | _, _ => none

/-- `bot.get_notification_intervals`: defaults to `[15, 5, 1]` when the row
is missing, the stored string is `NULL` or empty (Python falsiness), or any
comma-separated element fails to parse (the bare `except`); otherwise the
parsed integers sorted descending (`sorted(..., reverse=True)`). -/
def get_notification_intervals (row : Option ServerStateR) : List Int :=
  match row with
  | none => [15, 5, 1]
  | some r =>
    match r.notification_intervals with
    | none => [15, 5, 1]
    | some s =>
      if s.toList = [] then [15, 5, 1]
      else
        match parseAll (splitComma s.toList) with
        | none => [15, 5, 1]
        | some xs => xs.insertionSort (fun a b => b ≤ a)

/-- Row of the `bosses` table (`app/models.py: Boss`). -/
structure BossR where
  id : Int
  name : String
  spawn_chance_percent : Int
  first_spawn_minutes : Option Int
  respawn_minutes : Int
  is_active : Bool
  last_kill_at : Option Int
deriving DecidableEq

/-- `bot.boss_next_spawn`: per-boss call into the calculator. -/
def boss_next_spawn (b : BossR) (server_restart_at : Option Int) (now : Int) : Option Int :=
  next_spawn_at b.last_kill_at server_restart_at b.first_spawn_minutes b.respawn_minutes now

/-- `bot._spawn_key`: minute-resolution fingerprint of an instant
(`strftime "%Y-%m-%d %H:%M"` discards seconds, i.e. floor to the minute). -/
def spawn_key (t : Int) : Int :=
  Int.fdiv t 60

/-- A dispatched alert: `(boss id, minute-resolution spawn key, lead
minutes)`, lead `0` meaning the appearance alert. -/
abbrev Alert := Int × Int × Int

/-- The bot's process-wide mutable state: `_subscribers` and
`_sent_notifications`, threaded explicitly. -/
structure TickState where
  subscribers : List Int
  sent : List Alert
deriving DecidableEq

/-- The body shared by the two firing sites in `tick_notifications`:
check the ledger, record the key, then send to every subscriber, pruning
those whose delivery fails (`ok` tells which deliveries succeed). -/
def fireIfNew (ok : Int → Bool) (a : Alert) (st : TickState) : TickState × List Alert :=
  if a ∈ st.sent then (st, [])
  else ({ subscribers := st.subscribers.filter ok, sent := a :: st.sent }, [a])

/-- Sequencing of two state-threading steps, collecting dispatched alerts. -/
def stepSeq (f g : TickState → TickState × List Alert) (st : TickState) :
    TickState × List Alert :=
  let p := f st
  let q := g p.1
  (q.1, p.2 ++ q.2)

/-- The `for interval in intervals` loop of `tick_notifications`: fire the
lead-`i` alert when `i − 1 ≤ delta ≤ i + 1` (minutes, i.e. seconds scaled
by 60) and the ledger allows it. -/
def tickLeads (ok : Int → Bool) (d bid key : Int) :
    List Int → TickState → TickState × List Alert
  | [], st => (st, [])
  | i :: rest, st =>
    stepSeq
      (fun s =>
        if 60 * (i - 1) ≤ d ∧ d ≤ 60 * (i + 1) then fireIfNew ok (bid, key, i) s
        else (s, []))
      (tickLeads ok d bid key rest) st

/-- One boss's slice of `tick_notifications`: compute the next spawn, skip
when unscheduled or stale by more than a minute, fire the appearance alert
in the `(−1, 1]`-minute window, otherwise run the lead-time loop. -/
def tickBoss (ok : Int → Bool) (restart : Option Int) (intervals : List Int) (now : Int)
    (b : BossR) (st : TickState) : TickState × List Alert :=
  match boss_next_spawn b restart now with
  | none => (st, [])
  | some nxt =>
    if nxt - now ≤ -60 then (st, [])
    else if -60 < nxt - now ∧ nxt - now ≤ 60 then
      fireIfNew ok (b.id, spawn_key nxt, 0) st
    else
      tickLeads ok (nxt - now) b.id (spawn_key nxt) intervals st

/-- The `for boss in bosses` loop of `tick_notifications`. -/
def tickBosses (ok : Int → Bool) (restart : Option Int) (intervals : List Int) (now : Int) :
    List BossR → TickState → TickState × List Alert
  | [], st => (st, [])
  | b :: rest, st =>
    stepSeq (tickBoss ok restart intervals now b)
      (tickBosses ok restart intervals now rest) st

/-- `bot.tick_notifications`: return immediately when there are no
subscribers; otherwise read the restart anchor and intervals and process
every active boss. -/
def tick_notifications (ok : Int → Bool) (row : Option ServerStateR) (bosses : List BossR)
    (now : Int) (st : TickState) : TickState × List Alert :=
  if st.subscribers = [] then (st, [])
  else
    tickBosses ok (get_server_restart row) (get_notification_intervals row) now
      (bosses.filter (fun b => b.is_active)) st

/-- Inputs of one tick invocation: the delivery oracle, the `server_state`
row, the boss table and the wall-clock instant. -/
structure TickInput where
  ok : Int → Bool
  row : Option ServerStateR
  bosses : List BossR
  now : Int

/-- A whole sequence of `tick_notifications` invocations within one
process, threading `_subscribers` / `_sent_notifications` and
concatenating the dispatched alerts. -/
def runTicks : List TickInput → TickState → TickState × List Alert
  | [], st => (st, [])
  | inp :: rest, st =>
    stepSeq (tick_notifications inp.ok inp.row inp.bosses inp.now) (runTicks rest) st

/-- The database as seen by `cmd_restart`: the boss table and the singleton
`server_state` row. -/
structure DB where
  bosses : List BossR
  server_state : Option ServerStateR
deriving DecidableEq

/-- `bot.set_server_restart`: upsert of the singleton row; a fresh row gets
the default intervals string `"15,5,1"`. -/
def set_server_restart (db : DB) (instant : Option Int) : DB :=
  match db.server_state with
  | none =>
    { db with server_state := some ⟨instant, some "15,5,1"⟩ }
  | some row =>
    { db with server_state := some { row with server_restart_at := instant } }

/-- The state mutation of `bot.cmd_restart`: store the new restart instant,
then `db.query(Boss).update({Boss.last_kill_at: None})` — clear the kill
instant of every boss row, active or not. -/
def cmd_restart_apply (dt : Int) (db : DB) : DB :=
  let db1 := set_server_restart db (some dt)
  { db1 with bosses := db1.bosses.map (fun b => { b with last_kill_at := none }) }

/-! ### Ledger invariants of the tick loop -/

/-- Contract of one alert-producing step: its dispatched alerts are
pairwise distinct, none of them was already in the ledger, the ledger only
grows, and every dispatched alert ends up recorded. -/
def StepOk (f : TickState → TickState × List Alert) : Prop :=
  ∀ st : TickState,
    ((f st).2).Nodup ∧
    (∀ a : Alert, a ∈ (f st).2 → a ∉ st.sent) ∧
    (∀ a : Alert, a ∈ st.sent → a ∈ (f st).1.sent) ∧
    (∀ a : Alert, a ∈ (f st).2 → a ∈ (f st).1.sent)

lemma stepOk_skip : StepOk (fun st => (st, [])) := by
  intro st
  refine ⟨List.nodup_nil, ?_, ?_, ?_⟩ <;> simp

lemma stepOk_fireIfNew (ok : Int → Bool) (a : Alert) : StepOk (fireIfNew ok a) := by
  intro st
  by_cases h : a ∈ st.sent
  · refine ⟨?_, ?_, ?_, ?_⟩ <;> simp [fireIfNew, h]
  · refine ⟨?_, ?_, ?_, ?_⟩
    · simp [fireIfNew, h]
    · intro b hb
      have hba : b = a := by simpa [fireIfNew, h] using hb
      rw [hba]
      exact h
    · intro b hb
      simp only [fireIfNew, if_neg h, List.mem_cons]
      exact Or.inr hb
    · intro b hb
      have hba : b = a := by simpa [fireIfNew, h] using hb
      simp [fireIfNew, h, hba]

lemma stepSeq_eq (f g : TickState → TickState × List Alert) (st : TickState) :
    stepSeq f g st = ((g (f st).1).1, (f st).2 ++ (g (f st).1).2) := rfl

lemma stepOk_stepSeq {f g : TickState → TickState × List Alert}
    (hf : StepOk f) (hg : StepOk g) : StepOk (stepSeq f g) := by
  intro st
  obtain ⟨hf1, hf2, hf3, hf4⟩ := hf st
  obtain ⟨hg1, hg2, hg3, hg4⟩ := hg (f st).1
  rw [stepSeq_eq]
  refine ⟨?_, ?_, ?_, ?_⟩
  · exact List.Nodup.append hf1 hg1 (fun a ha hb => hg2 a hb (hf4 a ha))
  · intro a ha
    rcases List.mem_append.mp ha with h | h
    · exact hf2 a h
    · exact fun hmem => hg2 a h (hf3 a hmem)
  · exact fun a ha => hg3 a (hf3 a ha)
  · intro a ha
    rcases List.mem_append.mp ha with h | h
    · exact hg3 a (hf4 a h)
    · exact hg4 a h

lemma stepOk_ite (c : Prop) [Decidable c] {f g : TickState → TickState × List Alert}
    (hf : StepOk f) (hg : StepOk g) : StepOk (fun st => if c then f st else g st) := by
  intro st
  by_cases h : c
  · simpa [h] using hf st
  · simpa [h] using hg st

lemma stepOk_tickLeads (ok : Int → Bool) (d bid key : Int) :
    ∀ ints : List Int, StepOk (tickLeads ok d bid key ints)
  | [] => fun st => stepOk_skip st
  | i :: rest => fun st =>
    stepOk_stepSeq
      (stepOk_ite (60 * (i - 1) ≤ d ∧ d ≤ 60 * (i + 1))
        (stepOk_fireIfNew ok (bid, key, i)) stepOk_skip)
      (stepOk_tickLeads ok d bid key rest) st

lemma stepOk_tickBoss (ok : Int → Bool) (restart : Option Int) (intervals : List Int)
    (now : Int) (b : BossR) : StepOk (tickBoss ok restart intervals now b) := by
  intro st
  cases hnxt : boss_next_spawn b restart now with
  | none =>
    simp only [tickBoss, hnxt]
    exact stepOk_skip st
  | some nxt =>
    simp only [tickBoss, hnxt]
    split
    · exact stepOk_skip st
    · split
      · exact stepOk_fireIfNew ok (b.id, spawn_key nxt, 0) st
      · exact stepOk_tickLeads ok (nxt - now) b.id (spawn_key nxt) intervals st

lemma stepOk_tickBosses (ok : Int → Bool) (restart : Option Int) (intervals : List Int)
    (now : Int) : ∀ bosses : List BossR, StepOk (tickBosses ok restart intervals now bosses)
  | [] => fun st => stepOk_skip st
  | b :: rest => fun st =>
    stepOk_stepSeq (stepOk_tickBoss ok restart intervals now b)
      (stepOk_tickBosses ok restart intervals now rest) st

lemma stepOk_tick (ok : Int → Bool) (row : Option ServerStateR) (bosses : List BossR)
    (now : Int) : StepOk (tick_notifications ok row bosses now) := by
  intro st
  by_cases h : st.subscribers = []
  · simp only [tick_notifications, h, if_true, ite_true]
    exact stepOk_skip st
  · simp only [tick_notifications, h, if_false, ite_false]
    exact stepOk_tickBosses ok (get_server_restart row) (get_notification_intervals row) now
      (bosses.filter (fun b => b.is_active)) st

lemma stepOk_runTicks : ∀ inputs : List TickInput, StepOk (runTicks inputs)
  | [] => fun st => stepOk_skip st
  | inp :: rest => fun st =>
    stepOk_stepSeq (stepOk_tick inp.ok inp.row inp.bosses inp.now)
      (stepOk_runTicks rest) st

/-- C5: across any sequence of `tick_notifications` invocations in one
process, every alert triple `(boss id, minute-resolution spawn key, lead)`
is dispatched at most once (the dispatch log has no duplicates), and a
triple already recorded in the ledger is never dispatched by a later tick,
even when the tick recomputes the same minute-resolution occurrence. -/
theorem c5_dedup_at_most_once (inputs : List TickInput) (st : TickState) :
    ((runTicks inputs st).2).Nodup ∧
      ∀ a : Alert, a ∈ st.sent → a ∉ (runTicks inputs st).2 := by
  obtain ⟨h1, h2, _, _⟩ := stepOk_runTicks inputs st
  exact ⟨h1, fun a ha hmem => h2 a hmem ha⟩

/-- C5 witness: with `(1, 719, 0)` already in the ledger, a tick whose boss
recomputes the same minute (restart 43170 s, key `⌊43170/60⌋ = 719`) does
not dispatch the appearance alert again. -/
theorem c5_dedup_at_most_once_witness :
    ((1, 719, 0) : Alert) ∈ (TickState.mk [7] [(1, 719, 0)]).sent ∧
      ((1, 719, 0) : Alert) ∉
        (runTicks
          [⟨fun _ => true, some ⟨some 43170, some "15,5,1"⟩,
            [⟨1, "b", 50, none, 180, true, none⟩], 43200⟩]
          (TickState.mk [7] [(1, 719, 0)])).2 :=
  ⟨by decide,
    (c5_dedup_at_most_once
      [⟨fun _ => true, some ⟨some 43170, some "15,5,1"⟩,
        [⟨1, "b", 50, none, 180, true, none⟩], 43200⟩]
      (TickState.mk [7] [(1, 719, 0)])).2 (1, 719, 0) (by decide)⟩

/-- The firing site dispatches nothing or exactly its own triple. -/
lemma fireIfNew_out (ok : Int → Bool) (a : Alert) (st : TickState) :
    (fireIfNew ok a st).2 = [] ∨ (fireIfNew ok a st).2 = [a] := by
  unfold fireIfNew
  split
  · exact Or.inl rfl
  · exact Or.inr rfl

/-- Every alert dispatched by the lead-time loop carries one of the
configured lead times, whose window contains the delta. -/
lemma tickLeads_out_shape (ok : Int → Bool) (d bid key : Int) :
    ∀ (ints : List Int) (st : TickState) (a : Alert),
      a ∈ (tickLeads ok d bid key ints st).2 →
      ∃ i, i ∈ ints ∧ a = (bid, key, i) ∧ 60 * (i - 1) ≤ d ∧ d ≤ 60 * (i + 1)
  | [], _, a, ha => absurd ha (by simp [tickLeads])
  | i :: rest, st, a, ha => by
    rw [tickLeads, stepSeq_eq] at ha
    rcases List.mem_append.mp ha with h | h
    · by_cases hc : 60 * (i - 1) ≤ d ∧ d ≤ 60 * (i + 1)
      · rw [if_pos hc] at h
        rcases fireIfNew_out ok (bid, key, i) st with ho | ho <;> rw [ho] at h
        · cases h
        · rw [List.mem_singleton] at h
          exact ⟨i, List.mem_cons_self i rest, h, hc.1, hc.2⟩
      · rw [if_neg hc] at h
        cases h
    · obtain ⟨j, hj, hja, hw1, hw2⟩ := tickLeads_out_shape ok d bid key rest _ a h
      exact ⟨j, List.mem_cons_of_mem i hj, hja, hw1, hw2⟩

/-- C6: within one tick, each entity fires at most one alert, provided the
configured lead times are separated by more than 2 minutes (so their
±1-minute windows cannot overlap); and whenever the computed occurrence
lies in the `(−1, 1]`-minute appearance window, every alert fired for the
entity is the appearance alert (lead 0). -/
theorem c6_one_alert_per_entity (ok : Int → Bool) (restart : Option Int)
    (intervals : List Int) (now : Int) (b : BossR) (st : TickState)
    (hsep : ∀ i ∈ intervals, ∀ j ∈ intervals, i ≠ j → 2 < |i - j|) :
    (tickBoss ok restart intervals now b st).2.length ≤ 1 ∧
      ∀ nxt, boss_next_spawn b restart now = some nxt →
        -60 < nxt - now → nxt - now ≤ 60 →
        ∀ a ∈ (tickBoss ok restart intervals now b st).2,
          a = (b.id, spawn_key nxt, 0) := by
  cases hnxt : boss_next_spawn b restart now with
  | none =>
    refine ⟨by simp [tickBoss, hnxt], ?_⟩
    intro nxt h
    exact Option.noConfusion h
  | some nxt =>
    by_cases h1 : nxt - now ≤ -60
    · have hred : (tickBoss ok restart intervals now b st).2 = [] := by
        simp only [tickBoss, hnxt]
        rw [if_pos h1]
      refine ⟨by rw [hred]; simp, ?_⟩
      intro nxt' h hlo _
      injection h with he
      subst he
      omega
    · by_cases h2 : -60 < nxt - now ∧ nxt - now ≤ 60
      · have hred : (tickBoss ok restart intervals now b st).2
            = (fireIfNew ok (b.id, spawn_key nxt, 0) st).2 := by
          simp only [tickBoss, hnxt]
          rw [if_neg h1, if_pos h2]
        rcases fireIfNew_out ok (b.id, spawn_key nxt, 0) st with ho | ho
        · refine ⟨by rw [hred, ho]; simp, ?_⟩
          intro nxt' h _ _ a ha
          rw [hred, ho] at ha
          cases ha
        · refine ⟨by rw [hred, ho]; simp, ?_⟩
          intro nxt' h _ _ a ha
          injection h with he
          subst he
          rw [hred, ho, List.mem_singleton] at ha
          exact ha
      · have hred : (tickBoss ok restart intervals now b st).2
            = (tickLeads ok (nxt - now) b.id (spawn_key nxt) intervals st).2 := by
          simp only [tickBoss, hnxt]
          rw [if_neg h1, if_neg h2]
        have hnd := (stepOk_tickLeads ok (nxt - now) b.id (spawn_key nxt) intervals st).1
        refine ⟨?_, ?_⟩
        · rw [hred]
          cases hout : (tickLeads ok (nxt - now) b.id (spawn_key nxt) intervals st).2 with
          | nil => simp
          | cons a t =>
            cases t with
            | nil => simp
            | cons a2 t2 =>
              exfalso
              rw [hout] at hnd
              have hane : a ≠ a2 := by
                intro hcontra
                exact (List.nodup_cons.mp hnd).1 (hcontra ▸ List.mem_cons_self a2 t2)
              obtain ⟨i, hi, hia, hw1, hw2⟩ :=
                tickLeads_out_shape ok (nxt - now) b.id (spawn_key nxt) intervals st a
                  (by rw [hout]; exact List.mem_cons_self a (a2 :: t2))
              obtain ⟨j, hj, hja, hw3, hw4⟩ :=
                tickLeads_out_shape ok (nxt - now) b.id (spawn_key nxt) intervals st a2
                  (by rw [hout]; exact List.mem_cons_of_mem a (List.mem_cons_self a2 t2))
              by_cases hij : i = j
              · exact hane (by rw [hia, hja, hij])
              · have habs : |i - j| ≤ 2 := abs_le.mpr ⟨by omega, by omega⟩
                have := hsep i hi j hj hij
                omega
        · intro nxt' h hlo hhi
          injection h with he
          subst he
          exact absurd ⟨hlo, hhi⟩ h2

/-- C6 witness with the default lead set `[15, 5, 1]` (pairwise more than
2 minutes apart) at a boss in its appearance window. -/
theorem c6_one_alert_per_entity_witness :
    (∀ i ∈ [(15 : Int), 5, 1], ∀ j ∈ [(15 : Int), 5, 1], i ≠ j → 2 < |i - j|) ∧
      (tickBoss (fun _ => true) (some 0) [15, 5, 1] 0
        ⟨1, "b", 50, none, 180, true, none⟩ ⟨[9], []⟩).2.length ≤ 1 :=
  ⟨by decide,
    (c6_one_alert_per_entity (fun _ => true) (some 0) [15, 5, 1] 0
      ⟨1, "b", 50, none, 180, true, none⟩ ⟨[9], []⟩ (by decide)).1⟩

/-- C10: with no subscribers, a tick returns immediately: no alert is
dispatched and the whole state — ledger included — is unchanged. -/
theorem c10_no_subscribers_frame (ok : Int → Bool) (row : Option ServerStateR)
    (bosses : List BossR) (now : Int) (st : TickState)
    (h : st.subscribers = []) :
    tick_notifications ok row bosses now st = (st, []) := by
  simp [tick_notifications, h]

/-- C10 witness: a boss is inside its appearance window, yet a tick with no
subscribers records nothing and dispatches nothing. -/
theorem c10_no_subscribers_frame_witness :
    (TickState.mk [] []).subscribers = [] ∧
      tick_notifications (fun _ => true) (some ⟨some 43170, some "15,5,1"⟩)
        [⟨1, "b", 50, none, 180, true, none⟩] 43200 (TickState.mk [] [])
        = (TickState.mk [] [], []) :=
  ⟨rfl,
    c10_no_subscribers_frame (fun _ => true) (some ⟨some 43170, some "15,5,1"⟩)
      [⟨1, "b", 50, none, 180, true, none⟩] 43200 (TickState.mk [] []) rfl⟩

/-! ### Restart transition and notification-interval parsing -/

/-- C8: after the restart transition, every boss row — active or not — has
`last_kill_at = None`, and the stored anchor is the new restart instant. -/
theorem c8_restart_clears_kills (db : DB) (dt : Int) :
    (∀ b ∈ (cmd_restart_apply dt db).bosses, b.last_kill_at = none) ∧
      get_server_restart (cmd_restart_apply dt db).server_state = some dt := by
  constructor
  · intro b hb
    cases hrow : db.server_state with
    | none =>
      simp only [cmd_restart_apply, set_server_restart, hrow] at hb
      rcases List.mem_map.mp hb with ⟨b0, _, rfl⟩
      rfl
    | some row =>
      simp only [cmd_restart_apply, set_server_restart, hrow] at hb
      rcases List.mem_map.mp hb with ⟨b0, _, rfl⟩
      rfl
  · cases hrow : db.server_state with
    | none => simp [cmd_restart_apply, set_server_restart, get_server_restart, hrow]
    | some row => simp [cmd_restart_apply, set_server_restart, get_server_restart, hrow]

/-- C8 witness: a database with one active killed boss and one inactive
killed boss; after restart both kill instants are cleared and the anchor
is the new instant. -/
theorem c8_restart_clears_kills_witness :
    (⟨2, "c", 30, some 5, 120, false, none⟩ : BossR) ∈
        (cmd_restart_apply 999
          ⟨[⟨1, "a", 50, none, 60, true, some 100⟩, ⟨2, "c", 30, some 5, 120, false, some 200⟩],
            some ⟨some 10, some "15,5,1"⟩⟩).bosses ∧
      (⟨2, "c", 30, some 5, 120, false, none⟩ : BossR).last_kill_at = none ∧
      get_server_restart
        (cmd_restart_apply 999
          ⟨[⟨1, "a", 50, none, 60, true, some 100⟩, ⟨2, "c", 30, some 5, 120, false, some 200⟩],
            some ⟨some 10, some "15,5,1"⟩⟩).server_state = some 999 := by
  refine ⟨by decide, ?_, ?_⟩
  · exact (c8_restart_clears_kills
      ⟨[⟨1, "a", 50, none, 60, true, some 100⟩, ⟨2, "c", 30, some 5, 120, false, some 200⟩],
        some ⟨some 10, some "15,5,1"⟩⟩ 999).1
      ⟨2, "c", 30, some 5, 120, false, none⟩ (by decide)
  · exact (c8_restart_clears_kills
      ⟨[⟨1, "a", 50, none, 60, true, some 100⟩, ⟨2, "c", 30, some 5, 120, false, some 200⟩],
        some ⟨some 10, some "15,5,1"⟩⟩ 999).2

instance instIsTotalIntDesc : IsTotal Int (fun a b => b ≤ a) :=
  ⟨fun a b => le_total b a⟩

instance instIsTransIntDesc : IsTrans Int (fun a b => b ≤ a) :=
  ⟨fun _ _ _ h1 h2 => le_trans h2 h1⟩

/-- Unfolding of `get_notification_intervals` on a present row with a
present string. -/
lemma gni_some_eq (sr : Option Int) (s : String) :
    get_notification_intervals (some ⟨sr, some s⟩)
      = if s.toList = [] then [15, 5, 1]
        else
          match parseAll (splitComma s.toList) with
          | none => [15, 5, 1]
          | some xs => xs.insertionSort (fun a b => b ≤ a) := rfl

/-- The intervals list returned by `get_notification_intervals` is always
sorted in descending order. -/
lemma gni_sorted (row : Option ServerStateR) :
    (get_notification_intervals row).Sorted (fun a b : Int => b ≤ a) := by
  have hdef : ([15, 5, 1] : List Int).Sorted (fun a b : Int => b ≤ a) := by decide
  cases row with
  | none => exact hdef
  | some r =>
    obtain ⟨sr, ni⟩ := r
    cases ni with
    | none => exact hdef
    | some s =>
      rw [gni_some_eq]
      by_cases hs : s.toList = []
      · rw [if_pos hs]
        exact hdef
      · rw [if_neg hs]
        cases hp : parseAll (splitComma s.toList) with
        | none => exact hdef
        | some xs => exact List.sorted_insertionSort _ xs

/-- C9: when the stored string parses, the result is a permutation of the
parsed integers, sorted descending; when the row is missing, the string
`NULL` or empty, or any comma-separated element fails to parse, the
default `[15, 5, 1]` is returned (and no exception escapes: the function
is total). -/
theorem c9_notification_intervals (sr : Option Int) (s : String) (xs : List Int)
    (hs : s.toList ≠ []) (hp : parseAll (splitComma s.toList) = some xs) :
    (get_notification_intervals (some ⟨sr, some s⟩)).Perm xs ∧
      (get_notification_intervals (some ⟨sr, some s⟩)).Sorted (fun a b : Int => b ≤ a) ∧
      get_notification_intervals none = [15, 5, 1] ∧
      (∀ sr' : Option Int, get_notification_intervals (some ⟨sr', none⟩) = [15, 5, 1]) ∧
      (∀ (sr' : Option Int) (t : String), t.toList = [] →
        get_notification_intervals (some ⟨sr', some t⟩) = [15, 5, 1]) ∧
      (∀ (sr' : Option Int) (t : String),
        parseAll (splitComma t.toList) = none →
        get_notification_intervals (some ⟨sr', some t⟩) = [15, 5, 1]) := by
  refine ⟨?_, gni_sorted _, rfl, fun sr' => rfl, ?_, ?_⟩
  · rw [gni_some_eq, if_neg hs, hp]
    exact List.perm_insertionSort _ xs
  · intro sr' t ht
    rw [gni_some_eq, if_pos ht]
  · intro sr' t ht
    by_cases hte : t.toList = []
    · rw [gni_some_eq, if_pos hte]
    · rw [gni_some_eq, if_neg hte, ht]

/-- C9 witness at the stored string `"5,15,1"`, which parses to
`[5, 15, 1]` and is returned as `[15, 5, 1]`. -/
theorem c9_notification_intervals_witness :
    ("5,15,1" : String).toList ≠ [] ∧
      parseAll (splitComma ("5,15,1" : String).toList) = some [5, 15, 1] ∧
      (get_notification_intervals (some ⟨none, some "5,15,1"⟩)).Perm [5, 15, 1] :=
  ⟨by decide, by decide,
    (c9_notification_intervals none "5,15,1" [5, 15, 1] (by decide) (by decide)).1⟩

end TimerBot
